import Mathlib

/-!
Verification development for the `ipo-bot` repository (src/gmp.js and the
request-handler source file src/unnamed/part_000).

The JavaScript source is shallowly embedded:
* JavaScript strings are modelled as Lean `String`/`List Char` (sequences of
  Unicode scalar values; a lone UTF-16 surrogate produced by
  `String.fromCodePoint` is modelled as `Char.ofNat`, which yields U+0000).
* JSON values obtained from `res.json()` are modelled by the mutual inductive
  `Json`/`JsonArr`/`JsonObj` below; JavaScript truthiness is `truthy`.
* Number-to-string conversion (`String(n)`, template literals) is modelled by
  `natDec`/`intDec`, decimal rendering written with explicit fuel so that every
  definition is structurally recursive and kernel-computable.
* Host capabilities that are not part of the repository are passed as
  parameters: the current date (from `new Date()` / `Intl.DateTimeFormat`) and
  the generic date parser `new Date(string)` (a `String → Option UtcDate`
  argument giving the UTC calendar date of the parsed instant, if any).
* Code that can throw (`String.fromCodePoint` on an out-of-range code point,
  property access on `null`/`undefined`) is modelled in `Except String`, the
  error being the thrown message.
-/

/-! ### Small generic helpers -/

/-- Decimal digit character: the model of how one digit of a JavaScript number
renders.  Arguments are always below 10 at every use site. -/
def digitChar : Nat → Char
  | 0 => '0' | 1 => '1' | 2 => '2' | 3 => '3' | 4 => '4'
  | 5 => '5' | 6 => '6' | 7 => '7' | 8 => '8' | 9 => '9'
  | _ => '*'

/-- Core decimal renderer with explicit fuel; fuel `n + 1` always suffices for
`n` since each step divides by 10. -/
def natDecCore : Nat → Nat → List Char → List Char
  | 0, _, acc => acc
  | fuel + 1, n, acc =>
      if n < 10 then digitChar n :: acc
      else natDecCore fuel (n / 10) (digitChar (n % 10) :: acc)

/-- Model of JavaScript `String(n)` for a non-negative integer. -/
def natDec (n : Nat) : String := ⟨natDecCore (n + 1) n []⟩

/-- Model of JavaScript `String(n)` for an integer (years can be negative). -/
def intDec (i : Int) : String :=
  if i < 0 then "-" ++ natDec (-i).toNat else natDec i.toNat

/-- Model of JavaScript `str.padStart(k, "0")`. -/
def padZeros (k : Nat) (s : String) : String :=
  ⟨List.replicate (k - s.data.length) '0' ++ s.data⟩

/-- Two-digit zero-padded rendering, `String(n).padStart(2, "0")`. -/
def pad2 (n : Nat) : String := padZeros 2 (natDec n)

/-- Model of JavaScript `s.slice(-2)`: the last two characters (or the whole
string when it is shorter). -/
def sliceLast2 (s : String) : String := ⟨s.data.drop (s.data.length - 2)⟩

/-- Model of JavaScript `s.slice(0, n)`. -/
def slice0 (n : Nat) (s : String) : String := ⟨s.data.take n⟩

/-- The whitespace class of JavaScript (`\s`, `String.prototype.trim`). -/
def jsWs (c : Char) : Bool :=
  c = ' ' || c = '\t' || c = '\n' || c = '\r' || c = '\x0b' || c = '\x0c' ||
  c = '\u00A0' || c = '\u1680' || ('\u2000' ≤ c && c ≤ '\u200A') ||
  c = '\u2028' || c = '\u2029' || c = '\u202F' || c = '\u205F' ||
  c = '\u3000' || c = '\uFEFF'

/-- Drop a trailing run of whitespace. -/
def dropTrailWs : List Char → List Char
  | [] => []
  | c :: cs =>
      let r := dropTrailWs cs
      if r = [] && jsWs c then [] else c :: r

/-- Model of JavaScript `s.trim()`. -/
def jsTrim (s : String) : String := ⟨dropTrailWs (s.data.dropWhile jsWs)⟩

/-- Join a list of strings with a separator, the model of `Array.join`. -/
def joinSep (sep : String) : List String → String
  | [] => ""
  | [x] => x
  | x :: xs => x ++ sep ++ joinSep sep xs

/-- Does the character occur in the list?  (Own recursion, to keep all the
lemmas below self-contained.) -/
def hasChar (a : Char) : List Char → Bool
  | [] => false
  | c :: cs => c = a || hasChar a cs

/-- Is `p` a literal prefix of `l`? -/
def isPre : List Char → List Char → Bool
  | [], _ => true
  | _ :: _, [] => false
  | p :: ps, c :: cs => p = c && isPre ps cs

/-- Does the pattern occur as a contiguous substring? -/
def hasSub (pat : List Char) : List Char → Bool
  | [] => isPre pat []
  | c :: cs => isPre pat (c :: cs) || hasSub pat cs

/-- Exactly the strings accepted by the source's `/^\d{4}-\d{2}-\d{2}$/`
test: the `YYYY-MM-DD` shape. -/
def isYmdShape : List Char → Bool
  | [a, b, c, d, '-', e, f, '-', g, h] =>
      a.isDigit && b.isDigit && c.isDigit && d.isDigit &&
      e.isDigit && f.isDigit && g.isDigit && h.isDigit
  | _ => false


/-! ### The JSON data model

Values delivered by `res.json()` (`JSON.parse`): null, booleans, numbers
(numeric payload fields are modelled as integers), strings, arrays and
objects.  `undefined` arising from a missing property behaves, at every use
site in this program, exactly like `null` (falsy, `typeof ≠ "string"`,
throwing on property access), so missing properties are modelled as
`Json.null`.  Objects are modelled with their final key set (JSON.parse keeps
the last duplicate key). -/

mutual
inductive Json where
  | null
  | bool (b : Bool)
  | num (n : Int)
  | str (s : String)
  | arr (xs : JsonArr)
  | obj (fs : JsonObj)
deriving DecidableEq
inductive JsonArr where
  | nil
  | cons (hd : Json) (tl : JsonArr)
deriving DecidableEq
inductive JsonObj where
  | nil
  | cons (k : String) (v : Json) (tl : JsonObj)
deriving DecidableEq
end

/-- JavaScript truthiness of a JSON value (`NaN` does not arise: payload
numbers are integers). -/
def truthy : Json → Bool
  | .null => false
  | .bool b => b
  | .num n => n != 0
  | .str s => s ≠ ""
  | .arr _ => true
  | .obj _ => true

/-- First binding of a key in an object. -/
def lookupObj : JsonObj → String → Option Json
  | .nil, _ => none
  | .cons k v tl, key => if k = key then some v else lookupObj tl key

/-- Model of the JavaScript property read `j[k]`: throws a `TypeError` on
`null`/`undefined`, yields `undefined` (modelled `Json.null`) for a missing
key or a primitive receiver, and the stored value for an object.  The error
string is the thrown error's `message` (what the catch blocks embed via
`err.message`), which carries no `TypeError:` class-name prefix. -/
def jsGet (j : Json) (k : String) : Except String Json :=
  match j with
  | .null => .error ("Cannot read properties of null (reading \x27" ++ k ++ "\x27)")
  | .obj fs => .ok ((lookupObj fs k).getD .null)
  | _ => .ok .null

/-- Total property read, used only where the receiver was already checked
truthy (so it cannot be `null`/`undefined`). -/
def getProp : Json → String → Json
  | .obj fs, k => (lookupObj fs k).getD .null
  | _, _ => .null

/-- Model of `Array.isArray`. -/
def isArrayJs : Json → Bool
  | .arr _ => true
  | _ => false

/-- Lowercase hexadecimal digit, as used in `JSON.stringify`'s `\uXXXX`
escapes. -/
def hexDigitChar : Nat → Char
  | 0 => '0' | 1 => '1' | 2 => '2' | 3 => '3' | 4 => '4'
  | 5 => '5' | 6 => '6' | 7 => '7' | 8 => '8' | 9 => '9'
  | 10 => 'a' | 11 => 'b' | 12 => 'c' | 13 => 'd' | 14 => 'e' | 15 => 'f'
  | _ => '*'

/-- JSON string escaping as performed by `JSON.stringify`. -/
def escapeJsonChar (c : Char) : List Char :=
  if c = '"' then ['\\', '"']
  else if c = '\\' then ['\\', '\\']
  else if c = '\x08' then ['\\', 'b']
  else if c = '\x0c' then ['\\', 'f']
  else if c = '\n' then ['\\', 'n']
  else if c = '\r' then ['\\', 'r']
  else if c = '\t' then ['\\', 't']
  else if c.toNat < 0x20 then
    '\\' :: 'u' :: '0' :: '0' :: [hexDigitChar (c.toNat / 16), hexDigitChar (c.toNat % 16)]
  else [c]

/-- Escape every character of a string body. -/
def escapeJsonStr : List Char → List Char
  | [] => []
  | c :: cs => escapeJsonChar c ++ escapeJsonStr cs

/-- A JSON string literal with quotes. -/
def jsonQuote (s : String) : String := ⟨'"' :: escapeJsonStr s.data ++ ['"']⟩

mutual
/-- Model of `JSON.stringify(v)` (no indentation), as used for the notifier's
error message. -/
def stringifyCompact : Json → String
  | .null => "null"
  | .bool true => "true"
  | .bool false => "false"
  | .num n => intDec n
  | .str s => jsonQuote s
  | .arr xs => "[" ++ stringifyArrCompact xs ++ "]"
  | .obj fs => "\x7b" ++ stringifyObjCompact fs ++ "\x7d"
def stringifyArrCompact : JsonArr → String
  | .nil => ""
  | .cons h .nil => stringifyCompact h
  | .cons h (.cons h2 t) => stringifyCompact h ++ "," ++ stringifyArrCompact (.cons h2 t)
def stringifyObjCompact : JsonObj → String
  | .nil => ""
  | .cons k v .nil => jsonQuote k ++ ":" ++ stringifyCompact v
  | .cons k v (.cons k2 v2 t) =>
      jsonQuote k ++ ":" ++ stringifyCompact v ++ "," ++ stringifyObjCompact (.cons k2 v2 t)
end

mutual
/-- Model of `JSON.stringify(v, null, 2)` at nesting depth `ind` (number of
two-space indentation levels already applied), as used for the fallback
message. -/
def stringifyPretty : Nat → Json → String
  | _, .null => "null"
  | _, .bool true => "true"
  | _, .bool false => "false"
  | _, .num n => intDec n
  | _, .str s => jsonQuote s
  | _, .arr .nil => "[]"
  | ind, .arr (.cons h t) =>
      "[\n" ++ stringifyArrPretty (ind + 1) (.cons h t) ++ "\n" ++
        ⟨List.replicate (2 * ind) ' '⟩ ++ "]"
  | _, .obj .nil => "\x7b\x7d"
  | ind, .obj (.cons k v t) =>
      "\x7b\n" ++ stringifyObjPretty (ind + 1) (.cons k v t) ++ "\n" ++
        ⟨List.replicate (2 * ind) ' '⟩ ++ "\x7d"
def stringifyArrPretty : Nat → JsonArr → String
  | _, .nil => ""
  | ind, .cons h .nil => ⟨List.replicate (2 * ind) ' '⟩ ++ stringifyPretty ind h
  | ind, .cons h (.cons h2 t) =>
      ⟨List.replicate (2 * ind) ' '⟩ ++ stringifyPretty ind h ++ ",\n" ++
        stringifyArrPretty ind (.cons h2 t)
def stringifyObjPretty : Nat → JsonObj → String
  | _, .nil => ""
  | ind, .cons k v .nil =>
      ⟨List.replicate (2 * ind) ' '⟩ ++ jsonQuote k ++ ": " ++ stringifyPretty ind v
  | ind, .cons k v (.cons k2 v2 t) =>
      ⟨List.replicate (2 * ind) ' '⟩ ++ jsonQuote k ++ ": " ++ stringifyPretty ind v ++ ",\n" ++
        stringifyObjPretty ind (.cons k2 v2 t)
end

/-- Model of the template-literal interpolation
`${JSON.stringify(data, null, 2)}` in the fallback message. -/
def stringifyPretty0 (j : Json) : String := stringifyPretty 0 j

/-! ### The HTML-stripping pipeline (`decodeHtmlEntities`, `stripHtml`)

`text.replace(/<[^>]*>/g, " ")` scans left to right: at a `<` it consumes up
to the first later `>` (the greedy `[^>]*` cannot cross one) and emits a
space; a `<` with no later `>` matches nothing and is kept.  The recursion is
written with a fuel argument equal to the input length so that it is
structural and kernel-computable. -/

/-- Everything after the first `>`, if there is one. -/
def splitGt : List Char → Option (List Char)
  | [] => none
  | c :: cs => if c = '>' then some cs else splitGt cs

def replaceTagsF : Nat → List Char → List Char
  | 0, l => l
  | _ + 1, [] => []
  | fuel + 1, c :: cs =>
      if c = '<' then
        match splitGt cs with
        | some rest => ' ' :: replaceTagsF fuel rest
        | none => c :: replaceTagsF fuel cs
      else c :: replaceTagsF fuel cs

/-- Model of `text.replace(/<[^>]*>/g, " ")`. -/
def replaceTags (l : List Char) : List Char := replaceTagsF l.length l

/-- Leading run of decimal digits and the remainder. -/
def takeDigits : List Char → List Char × List Char
  | [] => ([], [])
  | c :: cs =>
      if c.isDigit then
        let p := takeDigits cs
        (c :: p.1, p.2)
      else ([], c :: cs)

def digitVal (c : Char) : Nat := c.toNat - '0'.toNat

def digitsToNatAux : Nat → List Char → Nat
  | acc, [] => acc
  | acc, c :: cs => digitsToNatAux (acc * 10 + digitVal c) cs

/-- Numeric value of a digit string, the model of `Number(code)` on the
digits captured by `/&#(\d+);/` (exact; the double rounding JavaScript
applies beyond 2^53 affects only the text of the thrown message for
absurdly long digit strings). -/
def digitsToNat (l : List Char) : Nat := digitsToNatAux 0 l

/-- Model of the one-code-point string built by `String.fromCodePoint` for an
in-range argument.  Lone UTF-16 surrogates (D800-DFFF) are not Unicode scalar
values and are represented by `Char.ofNat`'s default U+0000. -/
def codePointChar (n : Nat) : Char := Char.ofNat n

/-- Try to match `/&#(\d+);/` at the head of the list; on success return the
numeric value and the remainder after the `;`. -/
def numRefSplit : List Char → Option (Nat × List Char)
  | '&' :: '#' :: rest =>
      match takeDigits rest with
      | ([], _) => none
      | (d :: ds, r) =>
          match r with
          | ';' :: tail => some (digitsToNat (d :: ds), tail)
          | _ => none
  | _ => none

def decodeNumRefsF : Nat → List Char → Except String (List Char)
  | 0, l => .ok l
  | _ + 1, [] => .ok []
  | fuel + 1, c :: cs =>
      match numRefSplit (c :: cs) with
      | some (n, tail) =>
          if n ≤ 0x10FFFF then
            (decodeNumRefsF fuel tail).map (fun r => codePointChar n :: r)
          else .error ("Invalid code point " ++ natDec n)
      | none => (decodeNumRefsF fuel cs).map (fun r => c :: r)

/-- Model of `text.replace(/&#(\d+);/g, (_, code) => String.fromCodePoint(Number(code)))`.
`String.fromCodePoint` throws a `RangeError` for arguments above 0x10FFFF
(the `|| ""` in src/gmp.js after it is dead code: the exception propagates
before the disjunction is evaluated), modelled as `Except.error` carrying
the V8 message. -/
def decodeNumRefs (l : List Char) : Except String (List Char) :=
  decodeNumRefsF l.length l

def replaceSubF : Nat → List Char → List Char → List Char → List Char
  | 0, _, _, l => l
  | fuel + 1, pat, repl, l =>
      match l with
      | [] => []
      | c :: cs =>
          if isPre pat l then repl ++ replaceSubF fuel pat repl (l.drop pat.length)
          else c :: replaceSubF fuel pat repl cs

/-- Model of `text.split(pat).join(repl)`: replace every (leftmost,
non-overlapping) occurrence of a non-empty pattern. -/
def replaceSub (pat repl l : List Char) : List Char := replaceSubF l.length pat repl l

/-- Model of `decodeHtmlEntities`: numeric character references first, then
the six named entities in the object's key order (nbsp, amp, lt, gt, quot,
the numeric spelling of the apostrophe).  Inside `stripHtml` the argument is
always a string, so the `typeof text !== "string"` guard is handled at the
`stripHtml` level. -/
def decodeHtmlEntities (s : String) : Except String String :=
  (decodeNumRefs s.data).map (fun l =>
    let l1 := replaceSub "&nbsp;".data " ".data l
    let l2 := replaceSub "&amp;".data "&".data l1
    let l3 := replaceSub "&lt;".data "<".data l2
    let l4 := replaceSub "&gt;".data ">".data l3
    let l5 := replaceSub "&quot;".data "\"".data l4
    let l6 := replaceSub "&#39;".data "\x27".data l5
    ⟨l6⟩)

/-- Collapse maximal whitespace runs to one space,
`text.replace(/\s+/g, " ")`, as a single structural pass (the flag records
whether the previous character was part of a run already replaced). -/
def collapseWsAux : Bool → List Char → List Char
  | _, [] => []
  | prevWs, c :: cs =>
      if jsWs c then
        if prevWs then collapseWsAux true cs else ' ' :: collapseWsAux true cs
      else c :: collapseWsAux false cs

def collapseWs (l : List Char) : List Char := collapseWsAux false l

/-- Model of `stripHtml`: empty string for non-string input, otherwise tag
removal, entity decoding, whitespace collapsing and trimming. -/
def stripHtml (text : Json) : Except String String :=
  match text with
  | .str s => (decodeHtmlEntities ⟨replaceTags s.data⟩).map (fun d => jsTrim ⟨collapseWs d.data⟩)
  | _ => .ok ""

/-! ### Date normalization -/

/-- The UTC calendar date of a successfully parsed `new Date(string)`
instant (what `getUTCFullYear`/`getUTCMonth`/`getUTCDate` of the parsed
timestamp would report, i.e. what `toISOString` renders). -/
structure UtcDate where
  year : Int
  month : Nat
  day : Nat
deriving DecidableEq

/-- The `MONTH_SHORT` table of the source. -/
def MONTH_SHORT : List (String × String) :=
  [("jan", "01"), ("feb", "02"), ("mar", "03"), ("apr", "04"),
   ("may", "05"), ("jun", "06"), ("jul", "07"), ("aug", "08"),
   ("sep", "09"), ("oct", "10"), ("nov", "11"), ("dec", "12")]

def monthLookup : List (String × String) → String → Option String
  | [], _ => none
  | (k, v) :: tl, key => if k = key then some v else monthLookup tl key

/-- Model of `s.toLowerCase()` (the source only lowercases ASCII letters). -/
def strToLower (s : String) : String := ⟨s.data.map Char.toLower⟩

/-- Match `/^(\d{1,2})-([A-Za-z]{3})$/`, returning the day digits and the
month letters. -/
def shortDateMatch : List Char → Option (List Char × List Char)
  | [a, h, x, y, z] =>
      if a.isDigit && h = '-' && x.isAlpha && y.isAlpha && z.isAlpha then
        some ([a], [x, y, z])
      else none
  | [a, b, h, x, y, z] =>
      if a.isDigit && b.isDigit && h = '-' && x.isAlpha && y.isAlpha && z.isAlpha then
        some ([a, b], [x, y, z])
      else none
  | _ => none

/-- The year field of `Date.prototype.toISOString`: four zero-padded digits
for years 0-9999, otherwise the expanded six-digit form with a sign
(ECMA-262, Date Time String Format). -/
def isoYearField (y : Int) : String :=
  if 0 ≤ y ∧ y ≤ 9999 then padZeros 4 (natDec y.toNat)
  else if y < 0 then "-" ++ padZeros 6 (natDec (-y).toNat)
  else "+" ++ padZeros 6 (natDec y.toNat)

/-- Model of `parsed.toISOString().slice(0, 10)`.  The time-of-day part never
reaches the first ten characters, so it is rendered as a fixed placeholder. -/
def toISOSlice10 (d : UtcDate) : String :=
  slice0 10 (isoYearField d.year ++ "-" ++ pad2 d.month ++ "-" ++ pad2 d.day ++ "T00:00:00.000Z")

/-- Model of `normalizeDate`.  `parse` is the host's generic date parser
(`new Date(string)` on strings that are neither exact `YYYY-MM-DD` nor
`D[D]-Mon`), `currentYear` is `new Date().getFullYear()`. -/
def normalizeDate (parse : String → Option UtcDate) (currentYear : Int)
    (value : Json) : Option String :=
  match value with
  | .str s =>
      if s = "" then none
      else
        let trimmed := jsTrim s
        if trimmed = "" then none
        else if isYmdShape trimmed.data then some trimmed
        else
          match shortDateMatch trimmed.data with
          | some (dayRaw, mon) =>
              let day := padZeros 2 ⟨dayRaw⟩
              let month :=
                match monthLookup MONTH_SHORT (strToLower ⟨mon⟩) with
                | some m => some m
                | none => monthLookup MONTH_SHORT (strToLower ⟨mon.take 3⟩)
              match month with
              | some m => some (intDec currentYear ++ "-" ++ m ++ "-" ++ day)
              | none => (parse trimmed).map toISOSlice10
          | none => (parse trimmed).map toISOSlice10
  | _ => none

/-- Model of `getCloseDateIso`: source field chosen by raw truthiness
(`row["~Srt_Close"] || row.Close`), then markup-stripped, then
date-normalized. -/
def getCloseDateIso (parse : String → Option UtcDate) (currentYear : Int)
    (row : Json) : Except String (Option String) :=
  match jsGet row "~Srt_Close" with
  | .error e => .error e
  | .ok srt =>
      match (if truthy srt then .ok srt else jsGet row "Close" : Except String Json) with
      | .error e => .error e
      | .ok normalised =>
          match stripHtml normalised with
          | .error e => .error e
          | .ok stripped => .ok (normalizeDate parse currentYear (.str stripped))

/-- Model of `isClosingToday`: strict equality of the resolved close date
with the reference date string. -/
def isClosingToday (parse : String → Option UtcDate) (currentYear : Int)
    (row : Json) (todayIso : String) : Except String Bool :=
  match getCloseDateIso parse currentYear row with
  | .error e => .error e
  | .ok closeIso => .ok (closeIso == some todayIso)

/-! ### Row formatting and message composition -/

/-- The `stripHtml(row.F) || fallback` idiom: dash placeholder when the
stripped text is empty. -/
def orDash (s : String) : String := if s = "" then "-" else s

/-- Read a field of the row and strip its markup (both steps can throw). -/
def strippedField (row : Json) (k : String) : Except String String := do
  let v ← jsGet row k
  stripHtml v

/-- Model of `formatIpoRow`, preserving the source's evaluation order of the
field reads. -/
def formatIpoRow (row : Json) : Except String String := do
  let name ← strippedField row "Name"
  let gmp ← strippedField row "GMP"
  let price ← strippedField row "Price"
  let subs ← strippedField row "Sub"
  let gmpRange ← strippedField row "GMP(L/H)"
  let openF ← strippedField row "Open"
  let closeF ← strippedField row "Close"
  let windowText :=
    if openF ≠ "" || closeF ≠ "" then orDash openF ++ " – " ++ orDash closeF else "-"
  let listing ← strippedField row "Listing"
  let updated ← strippedField row "Updated-On"
  pure (joinSep "\n"
    [ "• " ++ (if name = "" then "Unknown IPO" else name),
      "  GMP: " ++ orDash gmp,
      "  Price: " ++ orDash price,
      "  Subscriptions: " ++ orDash subs,
      "  GMP Range: " ++ orDash gmpRange,
      "  Window: " ++ windowText,
      "  Listing: " ++ orDash listing,
      "  Updated: " ++ orDash updated,
      "  Action: Apply today before the window closes ✅" ])

/-- `Array.prototype.filter` with the closing-today predicate: the predicate
runs on the rows in order and its first exception aborts the filter. -/
def filterClosing (parse : String → Option UtcDate) (currentYear : Int)
    (todayIso : String) : JsonArr → Except String (List Json)
  | .nil => .ok []
  | .cons r tl => do
      let b ← isClosingToday parse currentYear r todayIso
      let rest ← filterClosing parse currentYear todayIso tl
      pure (if b then r :: rest else rest)

/-- `closingToday.map(formatIpoRow)`, first exception aborts. -/
def mapFormatRows : List Json → Except String (List String)
  | [] => .ok []
  | r :: rs => do
      let s ← formatIpoRow r
      let rest ← mapFormatRows rs
      pure (s :: rest)

/-- Model of `formatMessage`.  `todayIso` is the value of `getTodayIso()`
(the Asia/Kolkata current date, a host capability passed as a parameter). -/
def formatMessage (parse : String → Option UtcDate) (currentYear : Int)
    (todayIso : String) (data : Json) : Except String String :=
  if truthy data = false then
    .ok ("📈 IPO GMP Update\n\n" ++ stringifyPretty0 data)
  else
    match getProp data "reportTableData" with
    | .arr rows =>
        match filterClosing parse currentYear todayIso rows with
        | .error e => .error e
        | .ok closingToday =>
            match mapFormatRows closingToday with
            | .error e => .error e
            | .ok blocks =>
                let rowsText := jsTrim (joinSep "\n\n" blocks)
                if rowsText = "" then
                  .ok ("📈 IPOs Closing Today (" ++ todayIso ++ ")\n\nNo IPOs closing today.")
                else
                  .ok ("📈 IPOs Closing Today (" ++ todayIso ++ ")\n\n" ++ rowsText)
    | _ => .ok ("📈 IPO GMP Update\n\n" ++ stringifyPretty0 data)

/-! ### URL building -/

/-- The components of `new Date()` that the URL builder reads (getMonth is
the JavaScript 0-11 convention). -/
structure JsDate where
  getMonth : Nat
  getFullYear : Int
  getDate : Nat
  getHours : Nat
  getMinutes : Nat
deriving DecidableEq

/-- Model of `getFiscalYearLabel` (identical in both source files). -/
def getFiscalYearLabel (date : JsDate) : String :=
  let month := date.getMonth + 1
  let year := date.getFullYear
  let fyStart := if month ≥ 4 then year else year - 1
  let fyEnd := fyStart + 1
  intDec fyStart ++ "-" ++ sliceLast2 (intDec fyEnd)

/-- Model of `buildCacheBuster` (identical in both source files). -/
def buildCacheBuster (date : JsDate) : String :=
  pad2 date.getDate ++ "-" ++ pad2 date.getHours ++ pad2 date.getMinutes

/-- `API_URL.replace(/\/$/, "")`. -/
def stripTrailingSlash (s : String) : String :=
  if s.data.getLast? = some '/' then ⟨s.data.dropLast⟩ else s

/-- The URL string before any URL-object normalization: the path built from
the configuration values with the query string `search=&v={token}` appended
(the cache token is digits and dashes only, so the query serializer adds no
escaping). -/
def buildApiUrlRaw (apiUrl reportId : String) (now : JsDate) : String :=
  stripTrailingSlash apiUrl ++ "/" ++ reportId ++ "/1/" ++ natDec (now.getMonth + 1) ++
    "/" ++ intDec now.getFullYear ++ "/" ++ getFiscalYearLabel now ++ "/0/ipo" ++
    "?search=&v=" ++ buildCacheBuster now

/-- Model of src/gmp.js `buildApiUrl`: the string is additionally passed
through `new URL(...).toString()`, the host's WHATWG normalization
(scheme/host case-folding, default-port removal, dot-segment resolution,
percent-encoding).  That algorithm is not repository code and is passed in
as the parameter `urlNorm`; the `new URL` throw on an invalid base is
subsumed by the fetch oracle's failure outcome in the entry-point models,
which do not consume URLs. -/
def buildApiUrl (urlNorm : String → String) (apiUrl reportId : String)
    (now : JsDate) : String :=
  urlNorm (buildApiUrlRaw apiUrl reportId now)

/-- Model of the request handler's `buildApiUrl`: no URL object and no
normalization — plain concatenation over the trimmed base URL and report
id. -/
def buildApiUrlHandler (apiUrl reportId : String) (now : JsDate) : String :=
  buildApiUrlRaw (jsTrim apiUrl) (jsTrim reportId) now

/-! ### Fetching, the notifier, and the two entry points -/

/-- An upstream HTTP response: status code and parsed JSON body (the body is
`Except.error` when `res.json()` rejects). -/
structure FetchResp where
  status : Nat
  body : Except String Json

/-- Model of `fetchGmp`: transport failure or a response; `res.ok` is status
200-299; on a non-ok status throw `API error {status}`, otherwise the parsed
body. -/
def fetchGmp (r : Except String FetchResp) : Except String Json := do
  let resp ← r
  if resp.status < 200 || 300 ≤ resp.status then
    .error ("API error " ++ natDec resp.status)
  else resp.body

/-- Model of src/gmp.js `sendTelegram` applied to the provider's parsed
response: the HTTP status is never consulted; a missing or falsy `ok` flag
throws `Telegram send failed: {body}`. -/
def sendTelegram (status : Nat) (body : Json) : Except String Json :=
  match jsGet body "ok" with
  | .error e => .error e
  | .ok okField =>
      if truthy okField then .ok body
      else .error ("Telegram send failed: " ++ stringifyCompact body)

/-- The request handler's `sendTelegram`: identical except its error message
carries a trailing space. -/
def sendTelegramHandler (status : Nat) (body : Json) : Except String Json :=
  match jsGet body "ok" with
  | .error e => .error e
  | .ok okField =>
      if truthy okField then .ok body
      else .error ("Telegram send failed: " ++ stringifyCompact body ++ " ")

/-- The behaviour of the outside world during one invocation: the upstream
fetch outcome, and the messaging provider's HTTP status and parsed response
body for each message text it is sent. -/
structure ProviderOracle where
  fetchResp : Except String FetchResp
  tgStatus : String → Nat
  tgBody : String → Json

/-- The error, if any, at which the fetch → compose → send pipeline stops
(error messages as thrown by the standalone script's functions). -/
def pipelineIssue (o : ProviderOracle) (parse : String → Option UtcDate)
    (currentYear : Int) (todayIso : String) : Option String :=
  match fetchGmp o.fetchResp with
  | .error e => some e
  | .ok data =>
      match formatMessage parse currentYear todayIso data with
      | .error e => some e
      | .ok msg =>
          match sendTelegram (o.tgStatus msg) (o.tgBody msg) with
          | .error e => some e
          | .ok _ => none

/-- Model of src/gmp.js `main`: first component the list of texts passed to
`sendTelegram` in order (the observable notification attempts), second the
process exit code.  On any failure the catch block attempts exactly one
additional notification with the error text (its own failure is swallowed)
and exits 1. -/
def mainRun (o : ProviderOracle) (parse : String → Option UtcDate)
    (currentYear : Int) (todayIso : String) : List String × Nat :=
  match fetchGmp o.fetchResp with
  | .error e => (["⚠️ GMP Bot error: " ++ e], 1)
  | .ok data =>
      match formatMessage parse currentYear todayIso data with
      | .error e => (["⚠️ GMP Bot error: " ++ e], 1)
      | .ok msg =>
          match sendTelegram (o.tgStatus msg) (o.tgBody msg) with
          | .ok _ => ([msg], 0)
          | .error e => ([msg, "⚠️ GMP Bot error: " ++ e], 1)

/-- Model of the request handler: same pipeline, but the catch block only
returns a 500 response — no additional notification is attempted.  First
component the texts passed to `sendTelegram`, second the HTTP status of the
response returned. -/
def handlerRun (o : ProviderOracle) (parse : String → Option UtcDate)
    (currentYear : Int) (todayIso : String) : List String × Nat :=
  match fetchGmp o.fetchResp with
  | .error _ => ([], 500)
  | .ok data =>
      match formatMessage parse currentYear todayIso data with
      | .error _ => ([], 500)
      | .ok msg =>
          match sendTelegramHandler (o.tgStatus msg) (o.tgBody msg) with
          | .ok _ => ([msg], 200)
          | .error _ => ([msg], 500)


/-! ### Predicates used to state the claims -/

/-- Does the list contain a raw HTML tag, i.e. a substring matched by the
source's `/<[^>]*>/`?  Since `[^>]*` is greedy up to the first `>`, such a
match exists exactly when some `<` has a later `>`. -/
def hasTag : List Char → Bool
  | [] => false
  | c :: cs => (c = '<' && hasChar '>' cs) || hasTag cs

/-- Try to match `/&#(\d+);/` at the head (if-based twin of `numRefSplit`,
convenient for the claim statements and lemmas). -/
def hasNumRef : List Char → Bool
  | [] => false
  | c :: cs => (numRefSplit (c :: cs)).isSome || hasNumRef cs

/-- Is the string exactly two decimal digits? -/
def twoDigitStr (s : String) : Bool :=
  match s.data with
  | [a, b] => a.isDigit && b.isDigit
  | _ => false

/-- The claim's alternative for `normalizeDate`: the unparseable sentinel or
a string of the exact `YYYY-MM-DD` shape. -/
def ymdOrNone : Option String → Bool
  | none => true
  | some s => isYmdShape s.data

/-- One guaranteed point of the host date parser: ECMA-262's Date Time
String Format includes expanded years (`±YYYYYY-MM-DD`), so
`new Date("+010000-01-01")` parses to UTC year 10000, January 1. -/
def parseExpandedYear : String → Option UtcDate :=
  fun s => if s = "+010000-01-01" then some ⟨10000, 1, 1⟩ else none

/-- A payload row whose close field holds a numeric character reference just
above the last Unicode code point 0x10FFFF. -/
def badCodePointPayload : Json :=
  Json.obj (.cons "reportTableData"
    (Json.arr (.cons
      (Json.obj (.cons "~Srt_Close" (Json.str "&#1114112;") .nil)) .nil)) .nil)

/-- An invocation in which the upstream fetch rejects with a transport
error and the messaging provider acknowledges everything. -/
def oracleFetchFail : ProviderOracle where
  fetchResp := .error "fetch failed"
  tgStatus := fun _ => 200
  tgBody := fun _ => Json.obj (.cons "ok" (Json.bool true) .nil)

/-- A row whose raw `~Srt_Close` is truthy but strips to the empty string,
while `Close` holds a perfectly valid date. -/
def rowMarkupOnlyClose : Json :=
  Json.obj (.cons "~Srt_Close" (Json.str "<i></i>")
    (.cons "Close" (Json.str "2024-04-05") .nil))

/-- A Telegram response body whose success flag is false. -/
def tgNotOkBody : Json :=
  Json.obj (.cons "ok" (Json.bool false)
    (.cons "description" (Json.str "Bad Request: chat not found") .nil))

/-! ### Decimal rendering lemmas -/

theorem digitChar_isDigit {n : Nat} (h : n < 10) : (digitChar n).isDigit = true := by
  interval_cases n <;> decide

theorem natDecCore_base {fuel n : Nat} (acc : List Char) (hf : 1 ≤ fuel)
    (hn : n < 10) : natDecCore fuel n acc = digitChar n :: acc := by
  cases fuel with
  | zero => omega
  | succ f => simp [natDecCore, hn]

theorem natDecCore_step {fuel n : Nat} (acc : List Char) (hf : 1 ≤ fuel)
    (hn : 10 ≤ n) :
    natDecCore fuel n acc = natDecCore (fuel - 1) (n / 10) (digitChar (n % 10) :: acc) := by
  cases fuel with
  | zero => omega
  | succ f =>
      have : ¬ n < 10 := by omega
      simp [natDecCore, this]

theorem natDecCore_digits : ∀ fuel n acc, (∀ c ∈ acc, c.isDigit = true) →
    ∀ c ∈ natDecCore fuel n acc, c.isDigit = true := by
  intro fuel
  induction fuel with
  | zero => intro n acc h; simpa [natDecCore] using h
  | succ f ih =>
      intro n acc h c hc
      by_cases hn : n < 10
      · rw [natDecCore_base acc (by omega) hn] at hc
        rcases List.mem_cons.mp hc with hc | hc
        · exact hc ▸ digitChar_isDigit hn
        · exact h c hc
      · rw [natDecCore_step acc (by omega) (by omega)] at hc
        refine ih (n / 10) _ ?_ c hc
        intro d hd
        rcases List.mem_cons.mp hd with hd | hd
        · exact hd ▸ digitChar_isDigit (by omega)
        · exact h d hd

theorem natDecCore_len_le : ∀ fuel n acc k, n < 10 ^ k → 1 ≤ k →
    (natDecCore fuel n acc).length ≤ k + acc.length := by
  intro fuel
  induction fuel with
  | zero => intro n acc k _ _; simp [natDecCore]
  | succ f ih =>
      intro n acc k hk h1
      by_cases hn : n < 10
      · rw [natDecCore_base acc (by omega) hn]; simp; omega
      · rw [natDecCore_step acc (by omega) (by omega)]
        have hk2 : 2 ≤ k := by
          by_contra hkk
          have : k = 1 := by omega
          subst this; simp at hk; omega
        have hdiv : n / 10 < 10 ^ (k - 1) := by
          have h10 : (10:Nat) ^ k = 10 ^ (k - 1) * 10 := by
            conv_lhs => rw [show k = (k - 1) + 1 by omega]
            ring
          exact Nat.div_lt_of_lt_mul (by omega)
        have := ih (n / 10) (digitChar (n % 10) :: acc) (k - 1) hdiv (by omega)
        simp at this; simp; omega

theorem natDecCore_len_eq : ∀ fuel n acc k, 10 ^ (k - 1) ≤ n → n < 10 ^ k →
    k ≤ fuel → (natDecCore fuel n acc).length = k + acc.length := by
  intro fuel
  induction fuel with
  | zero => intro n acc k hlo hhi hf; interval_cases k; simp at hlo hhi; omega
  | succ f ih =>
      intro n acc k hlo hhi hf
      have hk1 : 1 ≤ k := by
        by_contra hk
        have : k = 0 := by omega
        subst this; simp at hhi; omega
      by_cases hn : n < 10
      · have : k = 1 := by
          by_contra hk
          have h2 : 2 ≤ k := by omega
          have : (10:Nat) ≤ 10 ^ (k - 1) := by
            calc (10:Nat) = 10 ^ 1 := by norm_num
            _ ≤ 10 ^ (k - 1) := Nat.pow_le_pow_right (by omega) (by omega)
          omega
        subst this
        rw [natDecCore_base acc (by omega) hn]; simp; omega
      · rw [natDecCore_step acc (by omega) (by omega)]
        have hk2 : 2 ≤ k := by
          by_contra hk
          have : k = 1 := by omega
          subst this; simp at hhi; omega
        have hdivlo : 10 ^ (k - 1 - 1) ≤ n / 10 := by
          have h10 : (10:Nat) ^ (k - 1) = 10 ^ (k - 1 - 1) * 10 := by
            conv_lhs => rw [show k - 1 = (k - 1 - 1) + 1 by omega]
            ring
          refine Nat.le_div_iff_mul_le (by omega) |>.mpr ?_
          omega
        have hdivhi : n / 10 < 10 ^ (k - 1) := by
          have h10 : (10:Nat) ^ k = 10 ^ (k - 1) * 10 := by
            conv_lhs => rw [show k = (k - 1) + 1 by omega]
            ring
          exact Nat.div_lt_of_lt_mul (by omega)
        have := ih (n / 10) (digitChar (n % 10) :: acc) (k - 1) hdivlo hdivhi (by omega)
        simp at this; simp; omega

theorem natDec_digits (n : Nat) : ∀ c ∈ (natDec n).data, c.isDigit = true := by
  intro c hc
  exact natDecCore_digits (n + 1) n [] (by simp) c hc

theorem natDec_len_le {n k : Nat} (hk : n < 10 ^ k) (h1 : 1 ≤ k) :
    (natDec n).data.length ≤ k := by
  have := natDecCore_len_le (n + 1) n [] k hk h1
  simpa [natDec] using this

theorem natDec_len_eq {n k : Nat} (hlo : 10 ^ (k - 1) ≤ n) (hhi : n < 10 ^ k)
    (hf : k ≤ n + 1) : (natDec n).data.length = k := by
  have := natDecCore_len_eq (n + 1) n [] k hlo hhi hf
  simpa [natDec] using this

theorem natDecCore_append : ∀ fuel n acc,
    natDecCore fuel n acc = natDecCore fuel n [] ++ acc := by
  intro fuel
  induction fuel with
  | zero => intro n acc; simp [natDecCore]
  | succ f ih =>
      intro n acc
      by_cases hn : n < 10
      · simp [natDecCore, hn]
      · simp only [natDecCore, if_neg hn]
        rw [ih (n / 10) (digitChar (n % 10) :: acc), ih (n / 10) [digitChar (n % 10)]]
        simp

theorem natDec_last_two {n : Nat} (hn : 10 ≤ n) :
    ∃ X, (natDec n).data = X ++ [digitChar (n / 10 % 10), digitChar (n % 10)] := by
  have h1 : (natDec n).data = natDecCore n (n / 10) [] ++ [digitChar (n % 10)] := by
    show natDecCore (n + 1) n [] = _
    rw [natDecCore_step [] (by omega) hn]
    simpa using natDecCore_append n (n / 10) [digitChar (n % 10)]
  by_cases hd : n / 10 < 10
  · refine ⟨[], ?_⟩
    rw [h1, natDecCore_base [] (by omega) hd]
    have : n / 10 % 10 = n / 10 := Nat.mod_eq_of_lt hd
    simp [this]
  · refine ⟨natDecCore (n - 1) (n / 10 / 10) [], ?_⟩
    rw [h1, natDecCore_step [] (by omega) (by omega),
        natDecCore_append (n - 1) (n / 10 / 10) [digitChar (n / 10 % 10)]]
    simp

theorem sliceLast2_natDec {n : Nat} (hn : 10 ≤ n) :
    sliceLast2 (natDec n) = pad2 (n % 100) := by
  obtain ⟨X, hX⟩ := natDec_last_two hn
  have hslice : (sliceLast2 (natDec n)).data = [digitChar (n / 10 % 10), digitChar (n % 10)] := by
    show ((natDec n).data.drop ((natDec n).data.length - 2)) = _
    rw [hX]
    have hlen : (X ++ [digitChar (n / 10 % 10), digitChar (n % 10)]).length - 2 = X.length := by
      simp
    rw [hlen]
    exact List.drop_left X _
  have harith1 : n % 100 / 10 = n / 10 % 10 := by omega
  have harith2 : n % 100 % 10 = n % 10 := by omega
  by_cases hm : n % 100 < 10
  · have hbase : (natDec (n % 100)).data = [digitChar (n % 100)] := by
      show natDecCore (n % 100 + 1) (n % 100) [] = _
      rw [natDecCore_base [] (by omega) hm]
    have h0 : n / 10 % 10 = 0 := by omega
    have hself : n % 100 = n % 10 := by omega
    apply String.ext
    rw [hslice]
    show _ = (List.replicate (2 - (natDec (n % 100)).data.length) '0' ++ (natDec (n % 100)).data)
    rw [hbase]
    simp [h0, hself, digitChar]
  · have hstep : (natDec (n % 100)).data =
        [digitChar (n % 100 / 10), digitChar (n % 100 % 10)] := by
      show natDecCore (n % 100 + 1) (n % 100) [] = _
      rw [natDecCore_step [] (by omega) (by omega),
          natDecCore_base [digitChar (n % 100 % 10)] (by omega) (by omega)]
    apply String.ext
    rw [hslice]
    show _ = (List.replicate (2 - (natDec (n % 100)).data.length) '0' ++ (natDec (n % 100)).data)
    rw [hstep]
    simp [harith1, harith2]

theorem pad2_shape {n : Nat} (hn : n ≤ 99) :
    ∃ a b, (pad2 n).data = [a, b] ∧ a.isDigit = true ∧ b.isDigit = true := by
  by_cases hm : n < 10
  · have hbase : (natDec n).data = [digitChar n] := by
      show natDecCore (n + 1) n [] = _
      rw [natDecCore_base [] (by omega) hm]
    refine ⟨'0', digitChar n, ?_, by decide, digitChar_isDigit hm⟩
    show (List.replicate (2 - (natDec n).data.length) '0' ++ (natDec n).data) = _
    rw [hbase]; simp
  · have hstep : (natDec n).data = [digitChar (n / 10), digitChar (n % 10)] := by
      show natDecCore (n + 1) n [] = _
      rw [natDecCore_step [] (by omega) (by omega)]
      rw [natDecCore_base [digitChar (n % 10)] (by omega) (by omega)]
    refine ⟨digitChar (n / 10), digitChar (n % 10), ?_,
      digitChar_isDigit (by omega), digitChar_isDigit (by omega)⟩
    show (List.replicate (2 - (natDec n).data.length) '0' ++ (natDec n).data) = _
    rw [hstep]; simp

theorem exists_four_chars {l : List Char} (h : l.length = 4) :
    ∃ a b c d, l = [a, b, c, d] := by
  rcases l with _ | ⟨a, _ | ⟨b, _ | ⟨c, _ | ⟨d, _ | ⟨e, t⟩⟩⟩⟩⟩ <;> simp at h
  exact ⟨a, b, c, d, rfl⟩

theorem padZeros_len {k : Nat} {s : String} (h : s.data.length ≤ k) :
    (padZeros k s).data.length = k := by
  show (List.replicate (k - s.data.length) '0' ++ s.data).length = k
  rw [List.length_append, List.length_replicate]; omega

theorem padZeros_digits {k : Nat} {s : String} (h : ∀ c ∈ s.data, c.isDigit = true) :
    ∀ c ∈ (padZeros k s).data, c.isDigit = true := by
  intro c hc
  rcases List.mem_append.mp hc with hc | hc
  · have := List.eq_of_mem_replicate hc
    subst this; decide
  · exact h c hc

theorem isYmdShape_build {a b c d e f g h : Char} (ha : a.isDigit = true)
    (hb : b.isDigit = true) (hc : c.isDigit = true) (hd : d.isDigit = true)
    (he : e.isDigit = true) (hf : f.isDigit = true) (hg : g.isDigit = true)
    (hh : h.isDigit = true) :
    isYmdShape [a, b, c, d, '-', e, f, '-', g, h] = true := by
  simp [isYmdShape, ha, hb, hc, hd, he, hf, hg, hh]

example : stripHtml (Json.str "<b>ABC</b> &amp; Co") = .ok "ABC & Co" := rfl
example : normalizeDate (fun _ => none) 2024 (Json.str "2024-04-05") = some "2024-04-05" := by decide
example : normalizeDate (fun _ => none) 2024 (Json.str "5-Apr") = some "2024-04-05" := by decide
example : normalizeDate (fun _ => none) 2024 (Json.str " ") = none := by decide
example : normalizeDate (fun _ => none) 2024 Json.null = none := by decide
example : stripHtml (Json.str "&lt;b&gt;") = .ok "<b>" := rfl
example : sliceLast2 (intDec 2026) = "26" := by decide
example : getFiscalYearLabel ⟨2, 2024, 1, 0, 0⟩ = "2023-24" := by decide
example : getFiscalYearLabel ⟨3, 2024, 1, 0, 0⟩ = "2024-25" := by decide
example : stringifyCompact (Json.obj (.cons "ok" (Json.bool false) .nil)) = "\x7b\"ok\":false\x7d" := by decide
example : stringifyPretty0 (Json.obj .nil) = "\x7b\x7d" := by decide
example : formatMessage (fun _ => none) 2024 "2024-04-05"
    (Json.obj (.cons "reportTableData" (Json.arr .nil) .nil)) =
    .ok "📈 IPOs Closing Today (2024-04-05)\n\nNo IPOs closing today." := rfl
example : buildApiUrl (fun s => s) "https://api.example.com/" "331" ⟨3, 2025, 7, 9, 5⟩ =
    "https://api.example.com/331/1/4/2025/2025-26/0/ipo?search=&v=07-0905" := by decide
set_option maxRecDepth 8000 in
example : formatMessage (fun _ => none) 2024 "2024-04-05"
    (Json.obj (.cons "reportTableData"
      (Json.arr (.cons (Json.obj (.cons "Name" (Json.str "<b>Foo</b>")
        (.cons "Close" (Json.str "05-Apr")
        (.cons "~Srt_Close" (Json.str "2024-04-05")
        (.cons "GMP" (Json.str "50") .nil))))) .nil)) .nil)) =
    .ok ("📈 IPOs Closing Today (2024-04-05)\n\n• Foo\n  GMP: 50\n  Price: -\n  Subscriptions: -\n  GMP Range: -\n  Window: - – 05-Apr\n  Listing: -\n  Updated: -\n  Action: Apply today before the window closes ✅") := rfl

/-! ### Lemmas about the tag-removal pass -/

theorem splitGt_none {l : List Char} (h : splitGt l = none) : hasChar '>' l = false := by
  induction l with
  | nil => rfl
  | cons c cs ih =>
      by_cases hc : c = '>'
      · simp [splitGt, hc] at h
      · simp [splitGt, hc] at h
        simp [hasChar, hc, ih h]

theorem splitGt_some_len : ∀ {l r : List Char}, splitGt l = some r → r.length < l.length := by
  intro l
  induction l with
  | nil => intro r h; simp [splitGt] at h
  | cons c cs ih =>
      intro r h
      by_cases hc : c = '>'
      · simp [splitGt, hc] at h
        subst h; simp
      · simp [splitGt, hc] at h
        have := ih h; simp; omega

theorem splitGt_some_hasChar {a : Char} : ∀ {l r : List Char}, splitGt l = some r →
    hasChar a r = true → hasChar a l = true := by
  intro l
  induction l with
  | nil => intro r h; simp [splitGt] at h
  | cons c cs ih =>
      intro r h hr
      by_cases hc : c = '>'
      · simp [splitGt, hc] at h
        subst h; simp [hasChar, hr]
      · simp [splitGt, hc] at h
        simp [hasChar, ih h hr]

theorem replaceTagsF_hasChar {a : Char} (ha : a ≠ ' ') : ∀ fuel l,
    hasChar a l = false → hasChar a (replaceTagsF fuel l) = false := by
  intro fuel
  induction fuel with
  | zero => intro l h; simpa [replaceTagsF] using h
  | succ f ih =>
      intro l h
      cases l with
      | nil => simp [replaceTagsF, hasChar]
      | cons c cs =>
          simp [hasChar] at h
          obtain ⟨hca, hcs⟩ := h
          by_cases hc : c = '<'
          · subst hc
            cases hrest : splitGt cs with
            | some rest =>
                simp [replaceTagsF, hrest, hasChar]
                constructor
                · intro hsp; exact ha hsp.symm
                · apply ih
                  by_contra hne
                  have : hasChar a rest = true := by
                    cases hh : hasChar a rest
                    · exact absurd hh hne
                    · rfl
                  exact absurd (splitGt_some_hasChar hrest this) (by simp [hcs])
            | none =>
                simp [replaceTagsF, hrest, hasChar, hca, ih cs hcs]
          · simp [replaceTagsF, hc, hasChar, hca, ih cs hcs]

theorem hasTag_replaceTagsF : ∀ fuel l, l.length ≤ fuel →
    hasTag (replaceTagsF fuel l) = false := by
  intro fuel
  induction fuel with
  | zero =>
      intro l h
      have : l = [] := List.length_eq_zero.mp (by omega)
      subst this; rfl
  | succ f ih =>
      intro l h
      cases l with
      | nil => simp [replaceTagsF, hasTag]
      | cons c cs =>
          simp at h
          by_cases hc : c = '<'
          · cases hrest : splitGt cs with
            | some rest =>
                have hlen : rest.length ≤ f := by
                  have := splitGt_some_len hrest; omega
                simp [replaceTagsF, hc, hrest, hasTag, ih rest hlen]
            | none =>
                have hgt : hasChar '>' cs = false := splitGt_none hrest
                have hout : hasChar '>' (replaceTagsF f cs) = false :=
                  replaceTagsF_hasChar (by decide) f cs hgt
                simp [replaceTagsF, hc, hrest, hasTag, hout, ih cs (by omega)]
          · simp [replaceTagsF, hc, hasTag, ih cs (by omega)]

theorem hasTag_replaceTags (l : List Char) : hasTag (replaceTags l) = false :=
  hasTag_replaceTagsF l.length l le_rfl

/-! ### Lemmas about whitespace collapsing and trimming -/

theorem collapseWsAux_hasChar {a : Char} (ha : jsWs a = false) : ∀ b l,
    hasChar a (collapseWsAux b l) = hasChar a l := by
  intro b l
  induction l generalizing b with
  | nil => rfl
  | cons c cs ih =>
      by_cases hw : jsWs c
      · have hca : (c = a) = False := by
          simp; intro he; subst he; rw [hw] at ha; cases ha
        cases b with
        | true => simp [collapseWsAux, hw, hasChar, hca, ih true]
        | false =>
            simp [collapseWsAux, hw, hasChar, hca, ih true]
            intro hsp; subst hsp; simp [jsWs] at ha
      · simp [collapseWsAux, hw, hasChar, ih false]

theorem hasTag_collapseWsAux : ∀ b l, hasTag (collapseWsAux b l) = hasTag l := by
  intro b l
  induction l generalizing b with
  | nil => rfl
  | cons c cs ih =>
      by_cases hw : jsWs c
      · have hlt : (c = '<') = False := by
          simp; intro he; subst he; simp [jsWs] at hw
        cases b with
        | true => simp [collapseWsAux, hw, hasTag, hlt, ih true]
        | false => simp [collapseWsAux, hw, hasTag, hlt, ih true]
      · simp [collapseWsAux, hw, hasTag, ih false,
          collapseWsAux_hasChar (show jsWs '>' = false by decide)]

theorem hasChar_sublist {a : Char} : ∀ {l₁ l₂ : List Char}, List.Sublist l₁ l₂ →
    hasChar a l₁ = true → hasChar a l₂ = true := by
  intro l₁ l₂ h
  induction h with
  | slnil => intro h; exact h
  | cons c _ ih => intro hh; simp [hasChar, ih hh]
  | cons₂ c _ ih =>
      intro hh
      simp [hasChar] at hh ⊢
      rcases hh with hh | hh
      · exact Or.inl hh
      · exact Or.inr (ih hh)

theorem hasTag_sublist : ∀ {l₁ l₂ : List Char}, List.Sublist l₁ l₂ →
    hasTag l₁ = true → hasTag l₂ = true := by
  intro l₁ l₂ h
  induction h with
  | slnil => intro h; exact h
  | cons c _ ih => intro hh; simp [hasTag]; exact Or.inr (ih hh)
  | cons₂ c _ ih =>
      intro hh
      simp [hasTag] at hh ⊢
      rcases hh with ⟨hc, hh⟩ | hh
      · exact Or.inl ⟨hc, hasChar_sublist (by assumption) hh⟩
      · exact Or.inr (ih hh)

theorem dropTrailWs_sublist : ∀ l : List Char, List.Sublist (dropTrailWs l) l := by
  intro l
  induction l with
  | nil => simp [dropTrailWs]
  | cons c cs ih =>
      simp only [dropTrailWs]
      by_cases h : dropTrailWs cs = [] ∧ jsWs c = true
      · simp [h.1, h.2]
      · have : (dropTrailWs cs = [] && jsWs c) = false ∨ dropTrailWs cs ≠ [] := by
          by_cases h1 : dropTrailWs cs = []
          · left
            by_cases h2 : jsWs c
            · exact absurd ⟨h1, h2⟩ h
            · simp [h2]
          · right; exact h1
        rcases this with hb | hb
        · rw [hb]; exact List.Sublist.cons₂ c ih
        · have : (dropTrailWs cs = [] && jsWs c) = false := by
            simp [hb]
          rw [this]; exact List.Sublist.cons₂ c ih

theorem jsTrim_data_sublist (s : String) : List.Sublist (jsTrim s).data s.data := by
  show List.Sublist (dropTrailWs (s.data.dropWhile jsWs)) s.data
  exact (dropTrailWs_sublist _).trans (List.dropWhile_sublist _)

/-! ### Lemmas about entity decoding on ampersand-free text -/

theorem numRefSplit_ne_amp {c : Char} (h : c ≠ '&') (cs : List Char) :
    numRefSplit (c :: cs) = none := by
  unfold numRefSplit
  split
  · rename_i rest heq
    injection heq with h1 h2
    exact absurd h1 h
  · rfl

theorem decodeNumRefsF_no_amp : ∀ fuel {l : List Char}, hasChar '&' l = false →
    decodeNumRefsF fuel l = .ok l := by
  intro fuel
  induction fuel with
  | zero => intro l _; rfl
  | succ f ih =>
      intro l h
      cases l with
      | nil => rfl
      | cons c cs =>
          simp [hasChar] at h
          obtain ⟨hca, hcs⟩ := h
          simp [decodeNumRefsF, numRefSplit_ne_amp hca cs, ih hcs, Except.map]

theorem replaceSubF_no_amp : ∀ fuel {ps repl l : List Char}, hasChar '&' l = false →
    replaceSubF fuel ('&' :: ps) repl l = l := by
  intro fuel
  induction fuel with
  | zero => intro ps repl l _; rfl
  | succ f ih =>
      intro ps repl l h
      cases l with
      | nil => rfl
      | cons c cs =>
          simp [hasChar] at h
          obtain ⟨hca, hcs⟩ := h
          have hpre : isPre ('&' :: ps) (c :: cs) = false := by
            simp [isPre]
            intro he
            exact absurd he.symm hca
          simp [replaceSubF, hpre, ih hcs]

theorem replaceSub_no_amp {ps repl l : List Char} (h : hasChar '&' l = false) :
    replaceSub ('&' :: ps) repl l = l :=
  replaceSubF_no_amp l.length h

theorem decodeHtmlEntities_no_amp {s : String} (h : hasChar '&' s.data = false) :
    decodeHtmlEntities s = .ok s := by
  have e1 : "&nbsp;".data = '&' :: "nbsp;".data := rfl
  have e2 : "&amp;".data = '&' :: "amp;".data := rfl
  have e3 : "&lt;".data = '&' :: "lt;".data := rfl
  have e4 : "&gt;".data = '&' :: "gt;".data := rfl
  have e5 : "&quot;".data = '&' :: "quot;".data := rfl
  have e6 : "&#39;".data = '&' :: "#39;".data := rfl
  unfold decodeHtmlEntities decodeNumRefs
  rw [decodeNumRefsF_no_amp s.data.length h]
  simp only [Except.map, e1, e2, e3, e4, e5, e6]
  rw [replaceSub_no_amp h, replaceSub_no_amp h, replaceSub_no_amp h,
      replaceSub_no_amp h, replaceSub_no_amp h, replaceSub_no_amp h]

theorem hasNumRef_hasAmp : ∀ {l : List Char}, hasNumRef l = true → hasChar '&' l = true := by
  intro l
  induction l with
  | nil => intro h; cases h
  | cons c cs ih =>
      intro h
      by_cases hc : c = '&'
      · simp [hasChar, hc]
      · simp [hasNumRef, numRefSplit_ne_amp hc cs] at h
        simp [hasChar, ih h]

theorem isPre_hasChar {a : Char} : ∀ {pat l : List Char}, isPre pat l = true →
    hasChar a pat = true → hasChar a l = true := by
  intro pat
  induction pat with
  | nil => intro l _ h; cases h
  | cons p ps ih =>
      intro l hpre hc
      cases l with
      | nil => cases hpre
      | cons c cs =>
          simp [isPre] at hpre
          simp [hasChar] at hc ⊢
          rcases hc with hc | hc
          · exact Or.inl (hpre.1 ▸ hc)
          · exact Or.inr (ih hpre.2 hc)

theorem hasSub_hasChar {a : Char} : ∀ {pat l : List Char}, hasSub pat l = true →
    hasChar a pat = true → hasChar a l = true := by
  intro pat l
  induction l with
  | nil =>
      intro hs hc
      cases pat with
      | nil => cases hc
      | cons p ps => cases hs
  | cons c cs ih =>
      intro hs hc
      simp [hasSub] at hs
      rcases hs with hs | hs
      · exact isPre_hasChar hs hc
      · simp [hasChar, ih hs hc]

/-- Evaluation of `stripHtml` on an ampersand-free string: no exception, and
the output is the trimmed, collapsed, tag-stripped text. -/
theorem stripHtml_no_amp_eval {s : String} (h : hasChar '&' s.data = false) :
    stripHtml (Json.str s) = .ok (jsTrim ⟨collapseWs (replaceTags s.data)⟩) := by
  have hrt : hasChar '&' (replaceTags s.data) = false :=
    replaceTagsF_hasChar (by decide) s.data.length s.data h
  show (decodeHtmlEntities ⟨replaceTags s.data⟩).map _ = _
  rw [show decodeHtmlEntities ⟨replaceTags s.data⟩ = .ok ⟨replaceTags s.data⟩ from
    decodeHtmlEntities_no_amp hrt]
  rfl

theorem stripHtml_no_amp_out {s : String} (h : hasChar '&' s.data = false) :
    hasTag (jsTrim ⟨collapseWs (replaceTags s.data)⟩).data = false ∧
    hasChar '&' (jsTrim ⟨collapseWs (replaceTags s.data)⟩).data = false := by
  have htag : hasTag (collapseWs (replaceTags s.data)) = false := by
    show hasTag (collapseWsAux false (replaceTags s.data)) = false
    rw [hasTag_collapseWsAux false (replaceTags s.data)]
    exact hasTag_replaceTags s.data
  have hamp : hasChar '&' (collapseWs (replaceTags s.data)) = false := by
    show hasChar '&' (collapseWsAux false (replaceTags s.data)) = false
    rw [collapseWsAux_hasChar (by decide) false (replaceTags s.data)]
    exact replaceTagsF_hasChar (by decide) s.data.length s.data h
  have hsub := jsTrim_data_sublist ⟨collapseWs (replaceTags s.data)⟩
  constructor
  · cases hh : hasTag (jsTrim ⟨collapseWs (replaceTags s.data)⟩).data
    · rfl
    · exact absurd (hasTag_sublist hsub hh) (by simp [htag])
  · cases hh : hasChar '&' (jsTrim ⟨collapseWs (replaceTags s.data)⟩).data
    · rfl
    · exact absurd (hasChar_sublist hsub hh) (by simp [hamp])

/-! ### Shape lemmas for `normalizeDate` -/

theorem monthLookup_twoDigit : ∀ {tbl : List (String × String)} {key v : String},
    monthLookup tbl key = some v → (∀ e ∈ tbl, twoDigitStr e.2 = true) →
    twoDigitStr v = true := by
  intro tbl
  induction tbl with
  | nil => intro key v h _; cases h
  | cons e tl ih =>
      intro key v h hall
      cases e with
      | mk k val =>
          by_cases hk : k = key
          · simp [monthLookup, hk] at h
            subst h
            exact hall (k, val) (by simp)
          · simp [monthLookup, hk] at h
            exact ih h (fun e he => hall e (by simp [he]))

theorem MONTH_SHORT_twoDigit : ∀ e ∈ MONTH_SHORT, twoDigitStr e.2 = true := by decide

theorem twoDigitStr_elim {s : String} (h : twoDigitStr s = true) :
    ∃ a b, s.data = [a, b] ∧ a.isDigit = true ∧ b.isDigit = true := by
  unfold twoDigitStr at h
  split at h
  · rename_i a b heq
    simp at h
    exact ⟨a, b, heq, h.1, h.2⟩
  · cases h

theorem shortDateMatch_day : ∀ {l d mon : List Char}, shortDateMatch l = some (d, mon) →
    twoDigitStr (padZeros 2 ⟨d⟩) = true := by
  intro l d mon h
  unfold shortDateMatch at h
  split at h
  · rename_i a hy x y z
    split at h
    · rename_i hcond
      simp at hcond
      injection h with h1
      injection h1 with hd hmon
      subst hd
      simp [padZeros, twoDigitStr]
      tauto
    · cases h
  · rename_i a b hy x y z
    split at h
    · rename_i hcond
      simp at hcond
      injection h with h1
      injection h1 with hd hmon
      subst hd
      simp [padZeros, twoDigitStr]
      tauto
    · cases h
  · cases h

theorem intDec_four {y : Int} (h1 : 1000 ≤ y) (h2 : y ≤ 9999) :
    ∃ a b c d, (intDec y).data = [a, b, c, d] ∧ a.isDigit = true ∧
      b.isDigit = true ∧ c.isDigit = true ∧ d.isDigit = true := by
  have hne : ¬ y < 0 := by omega
  have heq : intDec y = natDec y.toNat := by
    unfold intDec; rw [if_neg hne]
  have hlen : (natDec y.toNat).data.length = 4 := by
    refine natDec_len_eq ?_ ?_ ?_
    · show 10 ^ (4 - 1) ≤ y.toNat; norm_num; omega
    · show y.toNat < 10 ^ 4; norm_num; omega
    · omega
  obtain ⟨a, b, c, d, he⟩ := exists_four_chars hlen
  refine ⟨a, b, c, d, heq ▸ he, ?_, ?_, ?_, ?_⟩ <;>
    exact natDec_digits y.toNat _ (by simp [he])

theorem shortBranch_shape {y : Int} (hy1 : 1000 ≤ y) (hy2 : y ≤ 9999)
    {m day : String} (hm : twoDigitStr m = true) (hd : twoDigitStr day = true) :
    isYmdShape (intDec y ++ "-" ++ m ++ "-" ++ day).data = true := by
  obtain ⟨a, b, c, d4, he, ha, hb, hc, hd4⟩ := intDec_four hy1 hy2
  obtain ⟨e, f, hef, he1, hf1⟩ := twoDigitStr_elim hm
  obtain ⟨g, h, hgh, hg1, hh1⟩ := twoDigitStr_elim hd
  have hdash : "-".data = ['-'] := rfl
  have hfull : (intDec y ++ "-" ++ m ++ "-" ++ day).data = [a, b, c, d4, '-', e, f, '-', g, h] := by
    simp [String.data_append, he, hef, hgh, hdash]
  rw [hfull]
  exact isYmdShape_build ha hb hc hd4 he1 hf1 hg1 hh1

theorem toISOSlice10_shape {d : UtcDate} (hy0 : 0 ≤ d.year) (hy : d.year ≤ 9999)
    (hm : d.month ≤ 99) (hd : d.day ≤ 99) : isYmdShape (toISOSlice10 d).data = true := by
  have hyf : isoYearField d.year = padZeros 4 (natDec d.year.toNat) := by
    unfold isoYearField; rw [if_pos ⟨hy0, hy⟩]
  have hlen4 : (padZeros 4 (natDec d.year.toNat)).data.length = 4 :=
    padZeros_len (natDec_len_le (by show d.year.toNat < 10 ^ 4; norm_num; omega) (by norm_num))
  obtain ⟨a, b, c, d4, hy4⟩ := exists_four_chars hlen4
  have hy4dig : ∀ x ∈ [a, b, c, d4], x.isDigit = true := by
    intro x hx
    have hmem : x ∈ (padZeros 4 (natDec d.year.toNat)).data := by
      rw [hy4]; exact hx
    exact padZeros_digits (natDec_digits d.year.toNat) x hmem
  obtain ⟨e, f, hef, he1, hf1⟩ := twoDigitStr_elim (s := pad2 d.month) (by
    obtain ⟨x, y, hxy, hx, hy⟩ := pad2_shape hm
    simp [twoDigitStr, hxy, hx, hy])
  obtain ⟨g, h, hgh, hg1, hh1⟩ := twoDigitStr_elim (s := pad2 d.day) (by
    obtain ⟨x, y, hxy, hx, hy⟩ := pad2_shape hd
    simp [twoDigitStr, hxy, hx, hy])
  have hdash : "-".data = ['-'] := rfl
  have hfull : (isoYearField d.year ++ "-" ++ pad2 d.month ++ "-" ++ pad2 d.day ++
      "T00:00:00.000Z").data =
      [a, b, c, d4, '-', e, f, '-', g, h] ++ "T00:00:00.000Z".data := by
    simp [String.data_append, hyf, hy4, hef, hgh, hdash]
  show isYmdShape (List.take 10 ((isoYearField d.year ++ "-" ++ pad2 d.month ++ "-" ++
    pad2 d.day ++ "T00:00:00.000Z").data)) = true
  rw [hfull]
  have h10 : ([a, b, c, d4, '-', e, f, '-', g, h] : List Char).length = 10 := by simp
  rw [show (10 : Nat) = ([a, b, c, d4, '-', e, f, '-', g, h] : List Char).length from h10.symm,
    List.take_left]
  exact isYmdShape_build (hy4dig a (by simp)) (hy4dig b (by simp)) (hy4dig c (by simp))
    (hy4dig d4 (by simp)) he1 hf1 hg1 hh1

theorem jsTrim_all_ws {s : String} (h : ∀ c ∈ s.data, jsWs c = true) : jsTrim s = "" := by
  have hdw : s.data.dropWhile jsWs = [] := by
    rw [List.dropWhile_eq_nil_iff]
    intro x hx; simp [h x hx]
  apply String.ext
  show dropTrailWs (s.data.dropWhile jsWs) = "".data
  rw [hdw]; rfl

theorem normalizeDate_ymd (parse : String → Option UtcDate)
    (hp : ∀ s d, parse s = some d → 0 ≤ d.year ∧ d.year ≤ 9999 ∧ d.month ≤ 99 ∧ d.day ≤ 99)
    {y : Int} (hy1 : 1000 ≤ y) (hy2 : y ≤ 9999) :
    ∀ v : Json, ymdOrNone (normalizeDate parse y v) = true := by
  have hfb : ∀ t : String, ymdOrNone ((parse t).map toISOSlice10) = true := by
    intro t
    cases hpt : parse t with
    | none => rfl
    | some d =>
        obtain ⟨h0, h1, h2, h3⟩ := hp t d hpt
        simpa [ymdOrNone] using toISOSlice10_shape h0 h1 h2 h3
  intro v
  cases v with
  | null => rfl
  | bool b => rfl
  | num n => rfl
  | arr xs => rfl
  | obj fs => rfl
  | str s =>
      unfold normalizeDate
      by_cases hs : s = ""
      · simp [hs]; rfl
      · simp only [if_neg hs]
        by_cases ht : jsTrim s = ""
        · simp [ht]; rfl
        · simp only [if_neg ht]
          by_cases hY : isYmdShape (jsTrim s).data = true
          · simp [hY, ymdOrNone]
          · rw [if_neg hY]
            cases hsm : shortDateMatch (jsTrim s).data with
            | none => simp only [hsm]; exact hfb _
            | some pr =>
                obtain ⟨dayRaw, mon⟩ := pr
                simp only [hsm]
                have hdayshape := shortDateMatch_day hsm
                cases hm1 : monthLookup MONTH_SHORT (strToLower ⟨mon⟩) with
                | some m =>
                    simp only [hm1]
                    have hm2d := monthLookup_twoDigit hm1 MONTH_SHORT_twoDigit
                    simpa [ymdOrNone] using shortBranch_shape hy1 hy2 hm2d hdayshape
                | none =>
                    simp only [hm1]
                    cases hm2 : monthLookup MONTH_SHORT (strToLower ⟨mon.take 3⟩) with
                    | some m =>
                        simp only [hm2]
                        have hm2d := monthLookup_twoDigit hm2 MONTH_SHORT_twoDigit
                        simpa [ymdOrNone] using shortBranch_shape hy1 hy2 hm2d hdayshape
                    | none => simp only [hm2]; exact hfb _

/-! ### Lemmas about the notifier and the two entry points -/

theorem jsGet_ne_null {j : Json} (h : j ≠ Json.null) (k : String) :
    jsGet j k = .ok (getProp j k) := by
  cases j
  · exact absurd rfl h
  all_goals rfl

theorem send_ok_align (st st2 : Nat) (b : Json) :
    (∃ j j2, sendTelegram st b = .ok j ∧ sendTelegramHandler st2 b = .ok j2) ∨
    (∃ e e2, sendTelegram st b = .error e ∧ sendTelegramHandler st2 b = .error e2) := by
  unfold sendTelegram sendTelegramHandler
  cases hj : jsGet b "ok" with
  | error e => right; exact ⟨e, e, rfl, rfl⟩
  | ok v =>
      by_cases hv : truthy v
      · left; refine ⟨b, b, ?_, ?_⟩ <;> simp [hv]
      · right
        refine ⟨"Telegram send failed: " ++ stringifyCompact b,
          "Telegram send failed: " ++ stringifyCompact b ++ " ", ?_, ?_⟩ <;> simp [hv]

theorem runs_rel (o : ProviderOracle) (parse : String → Option UtcDate)
    (y : Int) (t : String) :
    (mainRun o parse y t).1 = (handlerRun o parse y t).1 ++
      (pipelineIssue o parse y t).elim [] (fun e => ["⚠️ GMP Bot error: " ++ e]) ∧
    ((mainRun o parse y t).2 = 0 ↔ (handlerRun o parse y t).2 = 200) ∧
    (∀ e, pipelineIssue o parse y t = some e →
      (mainRun o parse y t).2 = 1 ∧ (handlerRun o parse y t).2 = 500) := by
  unfold mainRun handlerRun pipelineIssue
  cases hf : fetchGmp o.fetchResp with
  | error e => simp
  | ok data =>
      cases hm : formatMessage parse y t data with
      | error e => simp [hm]
      | ok msg =>
          rcases send_ok_align (o.tgStatus msg) (o.tgStatus msg) (o.tgBody msg) with
            ⟨j, j2, h1, h2⟩ | ⟨e, e2, h1, h2⟩
          · simp [hm, h1, h2]
          · simp [hm, h1, h2]

/-! ### Supporting lemmas about `formatMessage` -/

theorem prefix_ne_empty (p t : String) (hp : p.data ≠ []) : p ++ t ≠ "" := by
  intro h
  have hd : (p ++ t).data = [] := by rw [h]
  rw [String.data_append] at hd
  exact hp (List.append_eq_nil.mp hd).1

/-- When the payload is truthy, carries a row array, and no row survives the
closing-today filter (in particular for the empty array), the composed
message is exactly the dated header plus the fixed no-IPOs line. -/
theorem formatMessage_no_survivors (parse : String → Option UtcDate) (y : Int)
    (t : String) (data : Json) (rows : JsonArr) (hd : truthy data = true)
    (hr : getProp data "reportTableData" = Json.arr rows)
    (hfc : filterClosing parse y t rows = .ok []) :
    formatMessage parse y t data =
      .ok ("📈 IPOs Closing Today (" ++ t ++ ")\n\nNo IPOs closing today.") := by
  unfold formatMessage
  rw [hd, hr]
  simp only [hfc]
  rfl

/-- Every message the composer returns is non-empty (each branch begins with
the chart emoji). -/
theorem formatMessage_ok_nonempty (parse : String → Option UtcDate) (y : Int)
    (t : String) (data : Json) (m : String)
    (h : formatMessage parse y t data = .ok m) : m ≠ "" := by
  unfold formatMessage at h
  by_cases hd : truthy data = false
  · rw [if_pos hd] at h
    injection h with h
    subst h
    exact prefix_ne_empty _ _ (by decide)
  · rw [if_neg hd] at h
    cases hgp : getProp data "reportTableData" with
    | arr rows =>
        rw [hgp] at h
        cases hfc : filterClosing parse y t rows with
        | error e => simp [hfc] at h
        | ok ct =>
            simp only [hfc] at h
            cases hmf : mapFormatRows ct with
            | error e => simp [hmf] at h
            | ok blocks =>
                simp only [hmf] at h
                by_cases hrt : jsTrim (joinSep "\n\n" blocks) = ""
                · rw [if_pos hrt] at h
                  injection h with h
                  subst h
                  exact prefix_ne_empty _ _ (by
                    rw [String.data_append]; simp)
                · rw [if_neg hrt] at h
                  injection h with h
                  subst h
                  exact prefix_ne_empty _ _ (by
                    rw [String.data_append]; simp)
    | null => rw [hgp] at h; simp only [] at h; injection h with h; subst h
              exact prefix_ne_empty _ _ (by decide)
    | bool b => rw [hgp] at h; simp only [] at h; injection h with h; subst h
                exact prefix_ne_empty _ _ (by decide)
    | num n => rw [hgp] at h; simp only [] at h; injection h with h; subst h
               exact prefix_ne_empty _ _ (by decide)
    | str s => rw [hgp] at h; simp only [] at h; injection h with h; subst h
               exact prefix_ne_empty _ _ (by decide)
    | obj fs => rw [hgp] at h; simp only [] at h; injection h with h; subst h
                exact prefix_ne_empty _ _ (by decide)

theorem buildApiUrl_norm_of_handler (urlNorm : String → String) (a r : String)
    (now : JsDate) (ha : jsTrim a = a) (hr : jsTrim r = r) :
    buildApiUrl urlNorm a r now = urlNorm (buildApiUrlHandler a r now) := by
  unfold buildApiUrl buildApiUrlHandler
  rw [ha, hr]

/-! ### Additional small helpers for the claims -/

theorem noSub_of_noAmp {l pat : List Char} (h : hasChar '&' l = false)
    (hp : hasChar '&' pat = true) : hasSub pat l = false := by
  cases hh : hasSub pat l
  · rfl
  · exact absurd (hasSub_hasChar hh hp) (by simp [h])

theorem noNumRef_of_noAmp {l : List Char} (h : hasChar '&' l = false) :
    hasNumRef l = false := by
  cases hh : hasNumRef l
  · rfl
  · exact absurd (hasNumRef_hasAmp hh) (by simp [h])


/-! ### The claims -/

/-- C1, counterexample: the two entry points do not share identical error
behaviour.  On the same failing input (upstream fetch rejects) the standalone
`main` attempts an error notification to the chat while the request handler
attempts no notification at all, so the sequences of notification calls
differ. -/
theorem c1_entry_points_counterexample :
    (mainRun oracleFetchFail (fun _ => none) 2024 "2024-04-05").1 ≠
      (handlerRun oracleFetchFail (fun _ => none) 2024 "2024-04-05").1 := by decide

/-- C1 (amended): the two entry points share the composition pipeline — for
every oracle the handler's notification attempts are a prefix of the
standalone's, the standalone only adding, on failure, the single error
notification; success is reported as exit 0 exactly when the handler reports
200; and, for configuration without surrounding whitespace, the standalone's
URL is the WHATWG normalization (`new URL(...).toString()`) of exactly the
string the handler builds — so the final URLs agree precisely where that
normalization fixes the handler's string, and differ in general (mixed-case
host, default port, encodable characters). -/
theorem c1_entry_points_equiv_amended :
    (∀ (o : ProviderOracle) (parse : String → Option UtcDate) (y : Int) (t : String),
      (mainRun o parse y t).1 = (handlerRun o parse y t).1 ++
        (pipelineIssue o parse y t).elim [] (fun e => ["⚠️ GMP Bot error: " ++ e]) ∧
      ((mainRun o parse y t).2 = 0 ↔ (handlerRun o parse y t).2 = 200)) ∧
    (∀ (urlNorm : String → String) (a r : String) (now : JsDate),
      jsTrim a = a → jsTrim r = r →
      buildApiUrl urlNorm a r now = urlNorm (buildApiUrlHandler a r now)) :=
  ⟨fun o parse y t => ⟨(runs_rel o parse y t).1, (runs_rel o parse y t).2.1⟩,
   fun urlNorm a r now ha hr => buildApiUrl_norm_of_handler urlNorm a r now ha hr⟩

/-- C1, witness: the amended equivalence applied at a concrete whitespace-free
configuration (with the identity in place of the host normalization, the two
builders' strings coincide). -/
theorem c1_witness :
    buildApiUrl (fun s => s) "https://api.example.com" "331" ⟨3, 2025, 7, 9, 5⟩ =
      buildApiUrlHandler "https://api.example.com" "331" ⟨3, 2025, 7, 9, 5⟩ :=
  c1_entry_points_equiv_amended.2 (fun s => s) "https://api.example.com" "331"
    ⟨3, 2025, 7, 9, 5⟩ (by decide) (by decide)

/-- C2, counterexample: `normalizeDate` does not always return a `YYYY-MM-DD`
string or the sentinel.  ECMA-262 requires `new Date("+010000-01-01")` (Date
Time String Format, expanded years) to parse to UTC year 10000, for which
`toISOString` uses the six-digit signed year form, so the `slice(0, 10)` is
`"+010000-01"`. -/
theorem c2_expanded_year_counterexample :
    normalizeDate parseExpandedYear 2025 (Json.str "+010000-01-01") = some "+010000-01" ∧
    isYmdShape "+010000-01".data = false := ⟨by decide, by decide⟩

/-- C2 (amended): `normalizeDate` is total (the model is a total function and
no modelled host operation throws), and returns either a `YYYY-MM-DD`-shaped
string or the `null` sentinel provided the generic date fallback only yields
dates of the four-digit-year era (years 0-9999) and the current calendar year
is four-digit; null, empty, whitespace-only and non-string inputs always give
the sentinel. -/
theorem c2_normalize_date_total_amended :
    ∀ (parse : String → Option UtcDate) (currentYear : Int) (v : Json),
      (∀ s d, parse s = some d → 0 ≤ d.year ∧ d.year ≤ 9999 ∧ d.month ≤ 99 ∧ d.day ≤ 99) →
      1000 ≤ currentYear → currentYear ≤ 9999 →
      ymdOrNone (normalizeDate parse currentYear v) = true ∧
      normalizeDate parse currentYear Json.null = none ∧
      normalizeDate parse currentYear (Json.str "") = none ∧
      (∀ s : String, (∀ c ∈ s.data, jsWs c = true) →
        normalizeDate parse currentYear (Json.str s) = none) ∧
      (∀ j : Json, (∀ t : String, j ≠ Json.str t) →
        normalizeDate parse currentYear j = none) := by
  intro parse y v hp hy1 hy2
  refine ⟨normalizeDate_ymd parse hp hy1 hy2 v, rfl, rfl, ?_, ?_⟩
  · intro s hws
    unfold normalizeDate
    by_cases hs : s = ""
    · simp [hs]
    · simp [hs, jsTrim_all_ws hws]
  · intro j hne
    cases j with
    | str t => exact absurd rfl (hne t)
    | null => rfl
    | bool b => rfl
    | num n => rfl
    | arr xs => rfl
    | obj fs => rfl

/-- C2, witness: the amended statement applied at a parser that always fails,
the calendar year 2025 and the input `"7-Apr"`. -/
theorem c2_witness :
    ymdOrNone (normalizeDate (fun _ => none) 2025 (Json.str "7-Apr")) = true :=
  (c2_normalize_date_total_amended (fun _ => none) 2025 (Json.str "7-Apr")
    (fun _ _ h => Option.noConfusion h) (by decide) (by decide)).1

/-- C3: `isClosingToday` returns `true` exactly when the resolved close date
(`getCloseDateIso`, which prefers the raw `~Srt_Close` field, falls back to
`Close`, strips markup and normalizes) is the reference date, and a row whose
resolved close date is the unparseable sentinel never matches. -/
theorem c3_is_closing_today_iff :
    ∀ (parse : String → Option UtcDate) (y : Int) (row : Json) (t : String),
      (isClosingToday parse y row t = .ok true ↔
        getCloseDateIso parse y row = .ok (some t)) ∧
      (getCloseDateIso parse y row = .ok none →
        isClosingToday parse y row t = .ok false) := by
  intro parse y row t
  unfold isClosingToday
  cases hg : getCloseDateIso parse y row with
  | error e => simp [hg]
  | ok c =>
      simp only [hg]
      constructor
      · simp
      · intro h
        injection h with h
        subst h
        simp

/-- C3, witness: a row with no close fields resolves to the sentinel and does
not match any reference date. -/
theorem c3_witness :
    isClosingToday (fun _ => none) 2024 (Json.obj .nil) "2024-04-05" = .ok false :=
  (c3_is_closing_today_iff (fun _ => none) 2024 (Json.obj .nil) "2024-04-05").2 rfl

/-- C4, counterexample: the output of `stripHtml` can contain a raw HTML tag:
entity decoding runs after tag removal, so `"&lt;b&gt;"` decodes to the raw
tag `"<b>"`. -/
theorem c4_reintroduced_tag_counterexample :
    stripHtml (Json.str "&lt;b&gt;") = .ok "<b>" ∧ hasTag "<b>".data = true :=
  ⟨rfl, by decide⟩

/-- C4 (amended): for every input string containing no ampersand (so that the
entity-decoding pass cannot reintroduce markup), `stripHtml` succeeds and its
output contains no raw HTML tag, no numeric character reference and none of
the six named entities; inputs with ampersands can have all three
reintroduced by decoding. -/
theorem c4_strip_markup_amended :
    ∀ s : String, hasChar '&' s.data = false →
      ∃ out, stripHtml (Json.str s) = .ok out ∧ hasTag out.data = false ∧
        hasNumRef out.data = false ∧
        hasSub "&nbsp;".data out.data = false ∧ hasSub "&amp;".data out.data = false ∧
        hasSub "&lt;".data out.data = false ∧ hasSub "&gt;".data out.data = false ∧
        hasSub "&quot;".data out.data = false ∧ hasSub "&#39;".data out.data = false := by
  intro s h
  obtain ⟨htag, hamp⟩ := stripHtml_no_amp_out h
  exact ⟨_, stripHtml_no_amp_eval h, htag, noNumRef_of_noAmp hamp,
    noSub_of_noAmp hamp (by decide), noSub_of_noAmp hamp (by decide),
    noSub_of_noAmp hamp (by decide), noSub_of_noAmp hamp (by decide),
    noSub_of_noAmp hamp (by decide), noSub_of_noAmp hamp (by decide)⟩

/-- C4, witness: the amended statement applied to a concrete ampersand-free
tagged string. -/
theorem c4_witness :
    ∃ out, stripHtml (Json.str "<b>Hello</b> world") = .ok out ∧
      hasTag out.data = false ∧ hasNumRef out.data = false ∧
      hasSub "&nbsp;".data out.data = false ∧ hasSub "&amp;".data out.data = false ∧
      hasSub "&lt;".data out.data = false ∧ hasSub "&gt;".data out.data = false ∧
      hasSub "&quot;".data out.data = false ∧ hasSub "&#39;".data out.data = false :=
  c4_strip_markup_amended "<b>Hello</b> world" (by decide)

/-- C5, counterexample: in the request-handler shape a pipeline failure
produces no additional notification call at all — the failing fetch leaves
the attempted-notification list empty, against the claimed exactly-one
additional call in both shapes. -/
theorem c5_no_secondary_in_handler_counterexample :
    pipelineIssue oracleFetchFail (fun _ => none) 2024 "2024-04-05" = some "fetch failed" ∧
    handlerRun oracleFetchFail (fun _ => none) 2024 "2024-04-05" = ([], 500) := ⟨rfl, rfl⟩

/-- C5 (amended): when any step of the build → fetch → compose → send
sequence fails, the standalone entry point attempts exactly one additional
notification carrying the error text — its notification list is the
handler's primary attempts plus that one error text, with nothing after it
(so a failure of the secondary call is not retried) — and exits 1, while the
request-handler shape attempts no additional notification and returns 500. -/
theorem c5_error_notification_amended :
    ∀ (o : ProviderOracle) (parse : String → Option UtcDate) (y : Int) (t e : String),
      pipelineIssue o parse y t = some e →
      (mainRun o parse y t).1 = (handlerRun o parse y t).1 ++ ["⚠️ GMP Bot error: " ++ e] ∧
      (mainRun o parse y t).2 = 1 ∧ (handlerRun o parse y t).2 = 500 := by
  intro o parse y t e he
  obtain ⟨h1, _, h3⟩ := runs_rel o parse y t
  rw [he] at h1
  exact ⟨h1, h3 e he⟩

/-- C5, witness: the amended statement at the concrete failing-fetch
invocation. -/
theorem c5_witness :
    (mainRun oracleFetchFail (fun _ => none) 2024 "2024-04-05").1 =
      (handlerRun oracleFetchFail (fun _ => none) 2024 "2024-04-05").1 ++
        ["⚠️ GMP Bot error: fetch failed"] ∧
    (mainRun oracleFetchFail (fun _ => none) 2024 "2024-04-05").2 = 1 ∧
    (handlerRun oracleFetchFail (fun _ => none) 2024 "2024-04-05").2 = 500 :=
  c5_error_notification_amended oracleFetchFail (fun _ => none) 2024 "2024-04-05"
    "fetch failed" rfl

/-- C6, counterexample: the JSON literal `null` is a legal parsed provider
response that lacks a truthy success flag, yet the error raised for it is
the `TypeError` from the `json.ok` property access — whose message is not
the `Telegram send failed:` error carrying the stringified response body —
so the claimed iff fails over all provider responses. -/
theorem c6_null_body_counterexample :
    sendTelegram 200 Json.null =
      .error "Cannot read properties of null (reading \x27ok\x27)" ∧
    truthy (getProp Json.null "ok") = false ∧
    ("Cannot read properties of null (reading \x27ok\x27)" : String) ≠
      "Telegram send failed: " ++ stringifyCompact Json.null :=
  ⟨rfl, rfl, by decide⟩

/-- C6 (amended): for every parsed provider response other than the JSON
literal `null`, `sendTelegram` raises `Telegram send failed: {body}` — the
error carrying the stringified response body — exactly when the parsed
response lacks a truthy `ok` flag, regardless of the HTTP status code (the
status argument is never consulted); with a truthy flag it returns the
parsed acknowledgement unchanged.  For the `null` response body the flag
inspection itself throws a `TypeError` that does not carry the body. -/
theorem c6_notifier_flag_check :
    ∀ (status : Nat) (body : Json),
      (body ≠ Json.null →
        (truthy (getProp body "ok") = false →
          sendTelegram status body =
            .error ("Telegram send failed: " ++ stringifyCompact body)) ∧
        (truthy (getProp body "ok") = true → sendTelegram status body = .ok body)) ∧
      (body = Json.null →
        sendTelegram status body =
          .error "Cannot read properties of null (reading \x27ok\x27)") := by
  intro st body
  constructor
  · intro hne
    unfold sendTelegram
    rw [jsGet_ne_null hne "ok"]
    constructor
    · intro h; simp [h]
    · intro h; simp [h]
  · intro h
    subst h
    rfl

/-- C6, witness: a failure-flagged body is rejected even with HTTP status
200. -/
theorem c6_witness :
    sendTelegram 200 tgNotOkBody =
      .error ("Telegram send failed: " ++ stringifyCompact tgNotOkBody) :=
  ((c6_notifier_flag_check 200 tgNotOkBody).1 (by decide)).1 (by decide)

/-- C7: the fiscal-year label starts with the calendar year for months
April-December (`getMonth + 1 ≥ 4`) and with the calendar year minus one for
January-March, and (for any four-or-more-digit era, year ≥ 10) its trailing
component is the last two decimal digits of start+1, zero-padded. -/
theorem c7_fiscal_year_label :
    ∀ d : JsDate,
      (4 ≤ d.getMonth + 1 →
        getFiscalYearLabel d =
          intDec d.getFullYear ++ "-" ++ sliceLast2 (intDec (d.getFullYear + 1))) ∧
      (d.getMonth + 1 ≤ 3 →
        getFiscalYearLabel d =
          intDec (d.getFullYear - 1) ++ "-" ++ sliceLast2 (intDec d.getFullYear)) ∧
      (10 ≤ d.getFullYear →
        getFiscalYearLabel d =
          intDec (if 4 ≤ d.getMonth + 1 then d.getFullYear else d.getFullYear - 1) ++ "-" ++
            pad2 (((if 4 ≤ d.getMonth + 1 then d.getFullYear else d.getFullYear - 1) + 1).toNat
              % 100)) := by
  intro d
  refine ⟨?_, ?_, ?_⟩
  · intro h
    simp only [getFiscalYearLabel]
    rw [if_pos h]
  · intro h
    have hneg : ¬ (4 ≤ d.getMonth + 1) := by omega
    simp only [getFiscalYearLabel]
    rw [if_neg hneg, show d.getFullYear - 1 + 1 = d.getFullYear by ring]
  · intro hy
    simp only [getFiscalYearLabel]
    by_cases hm : 4 ≤ d.getMonth + 1
    · rw [if_pos hm]
      have hpos : ¬ (d.getFullYear + 1 < 0) := by omega
      have he : intDec (d.getFullYear + 1) = natDec (d.getFullYear + 1).toNat := by
        unfold intDec; rw [if_neg hpos]
      rw [he, sliceLast2_natDec (by omega)]
    · rw [if_neg hm]
      have hpos : ¬ (d.getFullYear - 1 + 1 < 0) := by omega
      have he : intDec (d.getFullYear - 1 + 1) = natDec (d.getFullYear - 1 + 1).toNat := by
        unfold intDec; rw [if_neg hpos]
      rw [he, sliceLast2_natDec (by omega)]

/-- C7, witness: April 2025 (getMonth 3) keeps the calendar year as the
fiscal start. -/
theorem c7_witness :
    getFiscalYearLabel ⟨3, 2025, 1, 0, 0⟩ =
      intDec 2025 ++ "-" ++ sliceLast2 (intDec 2026) :=
  (c7_fiscal_year_label ⟨3, 2025, 1, 0, 0⟩).1 (by decide)

/-- C8 (code bug): the message composer is not total.  A row whose close
field carries the numeric character reference `&#1114112;` (one past the
last Unicode code point 0x10FFFF) makes `String.fromCodePoint` throw a
`RangeError`, which aborts composition — no message is produced at all, so
"the composed message is a non-empty string" fails.  The dead `|| ""` after
`String.fromCodePoint` in src/gmp.js shows the intended behaviour was an
empty-string fallback, i.e. the claim matches the intent and the code
slips. -/
theorem c8_format_message_throws_on_bad_code_point :
    formatMessage (fun _ => none) 2024 "2024-04-05" badCodePointPayload =
      .error "Invalid code point 1114112" := rfl

/-- C9: a payload without a valid row sequence (falsy payload, or a missing
or non-array `reportTableData`) never makes the composer fail: the result is
the fallback message, the fixed header followed by the two-space-indented
JSON rendering of the whole input payload. -/
theorem c9_malformed_payload_fallback :
    ∀ (parse : String → Option UtcDate) (y : Int) (t : String) (data : Json),
      truthy data = false ∨ isArrayJs (getProp data "reportTableData") = false →
      formatMessage parse y t data =
        .ok ("📈 IPO GMP Update\n\n" ++ stringifyPretty0 data) := by
  intro parse y t data h
  unfold formatMessage
  by_cases hd : truthy data = false
  · rw [if_pos hd]
  · rw [if_neg hd]
    have hna : isArrayJs (getProp data "reportTableData") = false := by
      rcases h with h | h
      · exact absurd h hd
      · exact h
    cases hgp : getProp data "reportTableData" with
    | arr rows => rw [hgp] at hna; simp [isArrayJs] at hna
    | null => rfl
    | bool b => rfl
    | num n => rfl
    | str s => rfl
    | obj fs => rfl

/-- C9, witness: an object payload with no `reportTableData` key gets the
fallback rendering. -/
theorem c9_witness :
    formatMessage (fun _ => none) 2024 "2024-01-01" (Json.obj .nil) =
      .ok ("📈 IPO GMP Update\n\n" ++ stringifyPretty0 (Json.obj .nil)) :=
  c9_malformed_payload_fallback (fun _ => none) 2024 "2024-01-01" (Json.obj .nil) (Or.inr rfl)

/-- C10: the close-date source is chosen by the truthiness of the raw
`~Srt_Close` value before any markup stripping — a falsy raw value falls
back to `Close`, a truthy raw value commits to `~Srt_Close`, and a truthy
raw value that strips to the empty string resolves to the unparseable
sentinel without consulting `Close`. -/
theorem c10_close_source_truthiness :
    ∀ (parse : String → Option UtcDate) (y : Int) (row srt : Json),
      jsGet row "~Srt_Close" = .ok srt →
      (truthy srt = false →
        getCloseDateIso parse y row =
          match jsGet row "Close" with
          | .error e => .error e
          | .ok cl =>
              match stripHtml cl with
              | .error e => .error e
              | .ok s => .ok (normalizeDate parse y (.str s))) ∧
      (truthy srt = true →
        getCloseDateIso parse y row =
          match stripHtml srt with
          | .error e => .error e
          | .ok s => .ok (normalizeDate parse y (.str s))) ∧
      (truthy srt = true → stripHtml srt = .ok "" →
        getCloseDateIso parse y row = .ok none) := by
  intro parse y row srt hg
  unfold getCloseDateIso
  refine ⟨?_, ?_, ?_⟩
  · intro ht; simp [hg, ht]
  · intro ht; simp [hg, ht]
  · intro ht hs; simp [hg, ht, hs]; rfl

/-- C10, witness: a row whose raw `~Srt_Close` is markup-only resolves to the
sentinel although its `Close` field holds the valid date 2024-04-05. -/
theorem c10_witness :
    truthy (Json.str "<i></i>") = true ∧
    getCloseDateIso (fun _ => none) 2024 rowMarkupOnlyClose = .ok none :=
  ⟨by decide, (c10_close_source_truthiness (fun _ => none) 2024 rowMarkupOnlyClose
      (Json.str "<i></i>") rfl).2.2 (by decide) rfl⟩
